import Mathlib

/-!
# Handystats: time units and attribute events

A shallow embedding of `include/handystats/chrono.hpp` (the `time_unit`
enumeration, its string conversions and its `std::less` specialisation) and of
`src/events/attribute.cpp` (creation, deletion and processing of attribute
events), followed by the properties proved about them.
-/

namespace handystats
namespace chrono

/-- The enumeration `time_unit` of chrono.hpp, lines 15-24, in declaration order. -/
inductive time_unit
  | CYCLE
  | NSEC
  | USEC
  | MSEC
  | SEC
  | MIN
  | HOUR
  | DAY
deriving DecidableEq, Repr

/-- The enumeration `clock_type` of chrono.hpp, lines 81-84. -/
inductive clock_type
  | INTERNAL
  | SYSTEM
deriving DecidableEq, Repr

/-- The data members of `struct duration`: a signed tick count and its unit.
The functions embedded here only copy durations, so `int64_t` is carried as an
integer. -/
structure duration where
  m_rep : Int
  m_unit : time_unit
deriving DecidableEq, Repr

/-- The data members of `struct time_point`. -/
structure time_point where
  m_since_epoch : duration
  m_clock : clock_type
deriving DecidableEq, Repr

/-- The terminating character of a C string. -/
def NUL : Char := Char.ofNat 0

/-- The character buffer behind `std::string::c_str()` and behind a string
literal: the characters of the string followed by the terminating NUL. A
`std::string` is carried as a `String`, one `Char` for each `char`, and may hold
NUL characters of its own. -/
def c_str (s : String) : List Char := s.toList ++ [NUL]

/-- The library function `strcmp` on two character buffers: it walks both until
the characters differ or a NUL has been read in both. `none` stands for reading
past the end of a buffer that has no terminator, which `c_str` excludes. -/
def strcmp : List Char → List Char → Option Int
  | a :: as, b :: bs =>
    if a = b then
      if a = NUL then some 0 else strcmp as bs
    else some ((a.toNat : Int) - (b.toNat : Int))
  | _, _ => none

/-- The function `time_unit_as_string` of chrono.hpp, lines 26-48. The result is the text
of the returned string literal; the `const char*` of the source points at
`c_str` of that text. The `return ""` after the switch is not reached by any
enumerator. -/
def time_unit_as_string (unit : time_unit) : String :=
  match unit with
  | .CYCLE => "c"
  | .NSEC => "ns"
  | .USEC => "us"
  | .MSEC => "ms"
  | .SEC => "s"
  | .MIN => "m"
  | .HOUR => "h"
  | .DAY => "d"

/-- The exception `std::logic_error` with its message. -/
structure logic_error where
  what : String
deriving DecidableEq, Repr

/-- The function `time_unit_from_string` of chrono.hpp, lines 50-79: a chain of `strcmp`
tests against the eight abbreviations, and a throw when none matches. -/
def time_unit_from_string (unit_str : String) : Except logic_error time_unit :=
  if strcmp (c_str unit_str) (c_str (time_unit_as_string time_unit.CYCLE)) = some 0 then
    .ok time_unit.CYCLE
  else if strcmp (c_str unit_str) (c_str (time_unit_as_string time_unit.NSEC)) = some 0 then
    .ok time_unit.NSEC
  else if strcmp (c_str unit_str) (c_str (time_unit_as_string time_unit.USEC)) = some 0 then
    .ok time_unit.USEC
  else if strcmp (c_str unit_str) (c_str (time_unit_as_string time_unit.MSEC)) = some 0 then
    .ok time_unit.MSEC
  else if strcmp (c_str unit_str) (c_str (time_unit_as_string time_unit.SEC)) = some 0 then
    .ok time_unit.SEC
  else if strcmp (c_str unit_str) (c_str (time_unit_as_string time_unit.MIN)) = some 0 then
    .ok time_unit.MIN
  else if strcmp (c_str unit_str) (c_str (time_unit_as_string time_unit.HOUR)) = some 0 then
    .ok time_unit.HOUR
  else if strcmp (c_str unit_str) (c_str (time_unit_as_string time_unit.DAY)) = some 0 then
    .ok time_unit.DAY
  else
    .error ⟨"time_unit_from_string: unknown time_unit"⟩

/-- The exception `time_unit_from_string` throws. -/
def unknown_time_unit : logic_error := ⟨"time_unit_from_string: unknown time_unit"⟩

/-- The C-string content of a `std::string`: its characters before the first
NUL, which is all that `strcmp` sees of it. -/
def c_content (s : String) : String := String.mk (s.toList.takeWhile (fun c => c != NUL))

/-- The eight abbreviations, in the order of the enumeration. -/
def abbreviations : List String := ["c", "ns", "us", "ms", "s", "m", "h", "d"]

/-- The sequence of units as the specification lists it. -/
def unit_sequence : List time_unit :=
  [.CYCLE, .NSEC, .USEC, .MSEC, .SEC, .MIN, .HOUR, .DAY]

/-- Position of a unit in `unit_sequence`. -/
def position (u : time_unit) : Nat := unit_sequence.indexOf u

end chrono
end handystats

namespace std
open handystats.chrono

/-- The private member `precision_class` of `std::less<time_unit>`, chrono.hpp lines
98-119. The results 1 to 128 are far from the range of `unsigned`, so no
wrapping is involved. The `return 0` after the switch is not reached by any
enumerator. -/
def less.precision_class (unit : time_unit) : Nat :=
  match unit with
  | .CYCLE => 1 <<< 0
  | .NSEC => 1 <<< 1
  | .USEC => 1 <<< 2
  | .MSEC => 1 <<< 3
  | .SEC => 1 <<< 4
  | .MIN => 1 <<< 5
  | .HOUR => 1 <<< 6
  | .DAY => 1 <<< 7

/-- The call operator of `std::less<time_unit>`, chrono.hpp lines 93-95. -/
def less (x y : time_unit) : Bool :=
  decide (less.precision_class x < less.precision_class y)

end std

namespace handystats

/-- Modelled from the spec: the type `handystats::attribute::value_type`, declared in
attribute.hpp, which is not among the sources. The specification describes it as
a tagged union over boolean, integer, floating-point and string. The functions
embedded here only copy values, so a floating-point value is carried as its
64-bit pattern. -/
inductive Attribute.value_type
  | boolean (b : Bool)
  | integer (i : Int)
  | floating_point (bits : Nat)
  | string (s : String)
deriving DecidableEq, Repr

/-- Modelled from the spec: the class `handystats::attribute`, declared in
attribute.hpp, which is not among the sources. The specification says it holds
the current value and its SET timestamp. (`attribute` is a reserved word of
Lean, hence the capital.) -/
structure Attribute where
  m_value : Attribute.value_type
  m_timestamp : chrono.time_point
deriving DecidableEq, Repr

/-- Modelled from the spec: the member `attribute::set(const value_type&)`, defined
outside the sources: "SET unconditionally overwrites the previous value". The
call in `process_set_event` hands over the value and nothing else. -/
def Attribute.set (attr : Attribute) (value : Attribute.value_type) : Attribute :=
  { attr with m_value := value }

/-- Modelled from the spec: the accessor `attribute::value()`, the current value. -/
def Attribute.value (attr : Attribute) : Attribute.value_type := attr.m_value

namespace events

/-- Modelled from the spec: the destination kinds of an event message, COUNTER, GAUGE,
TIMER and ATTRIBUTE; the enumeration is declared outside the sources. -/
inductive event_destination_type
  | COUNTER
  | GAUGE
  | TIMER
  | ATTRIBUTE
deriving DecidableEq, Repr

/-- Modelled from the spec: the event kinds of an attribute message, declared outside the
sources. attribute.cpp names only `SET`; `other code` stands for every other
value the `event_type` field of a message can hold. -/
inductive Attribute.event_type
  | SET
  | other (code : Nat)
deriving DecidableEq, Repr

/-- Modelled from the spec: the struct `event_message`, declared outside the sources, with
the five fields attribute.cpp assigns. `event_data` is the `void*` to the
payload; a pointer is carried as the address it holds, a natural number. -/
structure event_message where
  destination_name : String
  destination_type : event_destination_type
  timestamp : chrono.time_point
  event_type : Attribute.event_type
  event_data : Nat
deriving DecidableEq, Repr

/-- The object `new event_message` yields before any field is assigned: an empty
name; the other fields are indeterminate in C++ and here hold fixed fillers.
`create_set_event` assigns every field before it returns. -/
def event_message.fresh : event_message :=
  { destination_name := ""
    destination_type := event_destination_type.COUNTER
    timestamp := ⟨⟨0, chrono.time_unit.CYCLE⟩, chrono.clock_type.INTERNAL⟩
    event_type := Attribute.event_type.other 0
    event_data := 0 }

/-- The two kinds of object attribute.cpp allocates. -/
inductive heap_object
  | value (v : handystats.Attribute.value_type)
  | message (m : event_message)
deriving DecidableEq, Repr

/-- Modelled from the spec: the field `internal_errors`, the internal error counter of
the specification's sections 4.2 and 7, which no source file declares. The
other fields are the memory the functions of attribute.cpp act on: the live
allocations, the next address `new` hands out, and the log of the addresses
released by `delete`, oldest first. -/
structure store where
  live : List (Nat × heap_object)
  next : Nat
  released : List Nat
  internal_errors : Nat
deriving DecidableEq, Repr

/-- Look an address up among the live allocations. -/
def lookup (p : Nat) : List (Nat × heap_object) → Option heap_object
  | [] => none
  | e :: rest => if e.1 = p then some e.2 else lookup p rest

/-- The live object at an address, if any. -/
def store.find (s : store) (p : Nat) : Option heap_object := lookup p s.live

/-- The payload read through a pointer cast to `value_type*`; `none` when no live
`value_type` is there. -/
def store.value_at (s : store) (p : Nat) : Option handystats.Attribute.value_type :=
  match s.find p with
  | some (heap_object.value v) => some v
  | _ => none

/-- The message read through an `event_message*`; `none` when no live message is
there. -/
def store.message_at (s : store) (p : Nat) : Option event_message :=
  match s.find p with
  | some (heap_object.message m) => some m
  | _ => none

/-- The expression `new T(...)`: the object goes to the next address. -/
def store.new (s : store) (obj : heap_object) : store × Nat :=
  ({ s with live := (s.next, obj) :: s.live, next := s.next + 1 }, s.next)

/-- Assignment to the fields of the object at an address. -/
def store.write (s : store) (p : Nat) (obj : heap_object) : store :=
  { s with live := (p, obj) :: s.live.filter (fun e => e.1 != p) }

/-- The expression `delete p` on a live object: the allocation is gone and the
address is appended to the release log. -/
def store.release (s : store) (p : Nat) : store :=
  { s with live := s.live.filter (fun e => e.1 != p), released := s.released ++ [p] }

/-- The invariant of the allocator: `new` hands out addresses in increasing order
and never one twice, so every live object and every released address lies
below `next`. It holds of the empty memory and is kept by `new`, by `release`
and by `write` to a live address. -/
def store.wf (s : store) : Prop :=
  (∀ e ∈ s.live, e.1 < s.next) ∧ (∀ a ∈ s.released, a < s.next)

instance (s : store) : Decidable s.wf := by
  unfold store.wf
  infer_instance

namespace Attribute

/-- The function `create_set_event` of attribute.cpp, lines 27-44: allocate the message,
assign its fields, allocate a copy of the value as payload. The result is the
memory afterwards and the returned pointer. (`swap` also leaves the moved-from
argument empty, which the caller cannot observe through the message.) -/
def create_set_event (s : store) (attr_name : String)
    (value : handystats.Attribute.value_type) (timestamp : chrono.time_point) :
    store × Nat :=
  let (s1, message) := s.new (heap_object.message event_message.fresh)
  let (s2, event_data) := s1.new (heap_object.value value)
  (s2.write message (heap_object.message
    { destination_name := attr_name
      destination_type := event_destination_type.ATTRIBUTE
      timestamp := timestamp
      event_type := event_type.SET
      event_data := event_data }), message)

/-- The function `delete_set_event` of attribute.cpp, lines 46-50: delete the payload, then
the message. `none` is undefined behaviour: a pointer to no live object of the
expected type is read or deleted. The null pointer, on which `delete` does
nothing, is outside this model: every pointer is the address of an allocation,
as every `event_data` that `create_set_event` assigns is. -/
def delete_set_event (s : store) (message : Nat) : Option store := do
  let m ← s.message_at message
  let _ ← s.value_at m.event_data
  let s1 := s.release m.event_data
  let _ ← s1.message_at message
  pure (s1.release message)

/-- The function `delete_event` of attribute.cpp, lines 52-58: a switch on the event type
with the single case SET and no default, so that any other type falls out of
the switch and the function returns. `some` is a normal return. -/
def delete_event (s : store) (message : Nat) : Option store := do
  let m ← s.message_at message
  match m.event_type with
  | event_type.SET => delete_set_event s message
  | event_type.other _ => pure s

/-- The function `process_set_event` of attribute.cpp, lines 60-63: read the payload and
hand it to `attr.set`. The memory is returned as it was received: the function
allocates and deletes nothing and writes no counter. -/
def process_set_event (s : store) (attr : handystats.Attribute) (message : event_message) :
    Option (store × handystats.Attribute) := do
  let value ← s.value_at message.event_data
  pure (s, attr.set value)

/-- The function `process_event` of attribute.cpp, lines 65-73: SET goes to
`process_set_event`, the default case returns at once. -/
def process_event (s : store) (attr : handystats.Attribute) (message : event_message) :
    Option (store × handystats.Attribute) :=
  match message.event_type with
  | event_type.SET => process_set_event s attr message
  | event_type.other _ => some (s, attr)

end Attribute
end events
end handystats

/-! ## Sample inputs -/

namespace handystats.events.Attribute

/-- A time stamp of 100 ns on the system clock. -/
def sample_early : chrono.time_point :=
  ⟨⟨100, chrono.time_unit.NSEC⟩, chrono.clock_type.SYSTEM⟩

/-- A time stamp of 200 ns on the system clock. -/
def sample_late : chrono.time_point :=
  ⟨⟨200, chrono.time_unit.NSEC⟩, chrono.clock_type.SYSTEM⟩

/-- An attribute that holds the string "old". -/
def sample_attr : handystats.Attribute :=
  ⟨handystats.Attribute.value_type.string "old", sample_early⟩

/-- A SET message for "v" stamped 200 ns, with its payload at address 1. -/
def sample_set_message : event_message :=
  { destination_name := "v"
    destination_type := event_destination_type.ATTRIBUTE
    timestamp := sample_late
    event_type := event_type.SET
    event_data := 1 }

/-- A message for "v" whose event type is not SET, with its payload at address 3. -/
def sample_other_message : event_message :=
  { destination_name := "v"
    destination_type := event_destination_type.ATTRIBUTE
    timestamp := sample_late
    event_type := event_type.other 7
    event_data := 3 }

/-- A memory with `sample_set_message` at address 0, `sample_other_message` at
address 2, their payloads "a" and "b" at 1 and 3, nothing released so far and
an error counter of 0. -/
def sample_store : store :=
  { live := [(0, heap_object.message sample_set_message),
             (1, heap_object.value (handystats.Attribute.value_type.string "a")),
             (2, heap_object.message sample_other_message),
             (3, heap_object.value (handystats.Attribute.value_type.string "b"))]
    next := 4
    released := []
    internal_errors := 0 }

/-- The result of `create_set_event("v", "a", 200 ns)` on `sample_store`: the
memory afterwards and the returned pointer. -/
def sample_created : store × Nat :=
  create_set_event sample_store "v" (handystats.Attribute.value_type.string "a") sample_late

end handystats.events.Attribute

/-! ## Time units: properties -/

namespace handystats.chrono

theorem char_sub_ne_zero {a b : Char} (h : a ≠ b) :
    ((a.toNat : Int) - (b.toNat : Int)) ≠ 0 := by
  intro h0
  apply h
  have h1 : a.toNat = b.toNat := by omega
  apply Char.ext
  apply UInt32.ext
  exact h1

/-- On two terminated buffers `strcmp` answers 0 exactly when the first one's
characters before its first NUL are the second one's characters. -/
theorem strcmp_zero_iff (a b : List Char) (hb : ∀ c ∈ b, c ≠ NUL) :
    strcmp (a ++ [NUL]) (b ++ [NUL]) = some 0 ↔ a.takeWhile (fun c => c != NUL) = b := by
  induction a generalizing b with
  | nil =>
    cases b with
    | nil => simp [strcmp]
    | cons c bs =>
      have hc : c ≠ NUL := hb c (by simp)
      have hc2 : NUL ≠ c := fun h => hc h.symm
      simp [strcmp, hc2, char_sub_ne_zero hc2]
  | cons x xs ih =>
    cases b with
    | nil =>
      by_cases hx : x = NUL
      · simp [strcmp, hx]
      · simp [strcmp, hx, char_sub_ne_zero hx]
    | cons c bs =>
      have hc : c ≠ NUL := hb c (by simp)
      by_cases hxc : x = c
      · subst hxc
        have hbs : ∀ d ∈ bs, d ≠ NUL := fun d hd => hb d (by simp [hd])
        simp [strcmp, hc, ih bs hbs]
      · by_cases hx : x = NUL
        · subst hx
          simp [strcmp, hxc, char_sub_ne_zero hxc]
        · simp [strcmp, hxc, hx, char_sub_ne_zero hxc]

theorem strcmp_literal_iff (s lit : String) (hl : ∀ c ∈ lit.toList, c ≠ NUL) :
    strcmp (c_str s) (c_str lit) = some 0 ↔ c_content s = lit := by
  unfold c_str c_content
  rw [strcmp_zero_iff _ _ hl]
  constructor
  · intro h
    rw [h]
    rfl
  · intro h
    subst h
    rfl

/-- The chain of `strcmp` tests, read as tests on the C-string content. -/
theorem time_unit_from_string_eq (s : String) :
    time_unit_from_string s =
      if c_content s = "c" then .ok time_unit.CYCLE
      else if c_content s = "ns" then .ok time_unit.NSEC
      else if c_content s = "us" then .ok time_unit.USEC
      else if c_content s = "ms" then .ok time_unit.MSEC
      else if c_content s = "s" then .ok time_unit.SEC
      else if c_content s = "m" then .ok time_unit.MIN
      else if c_content s = "h" then .ok time_unit.HOUR
      else if c_content s = "d" then .ok time_unit.DAY
      else .error unknown_time_unit := by
  unfold time_unit_from_string unknown_time_unit
  simp only [time_unit_as_string]
  simp only [strcmp_literal_iff s "c" (by decide), strcmp_literal_iff s "ns" (by decide),
    strcmp_literal_iff s "us" (by decide), strcmp_literal_iff s "ms" (by decide),
    strcmp_literal_iff s "s" (by decide), strcmp_literal_iff s "m" (by decide),
    strcmp_literal_iff s "h" (by decide), strcmp_literal_iff s "d" (by decide)]

theorem time_unit_as_string_injective : Function.Injective time_unit_as_string := by
  intro x y h
  cases x <;> cases y <;> first | rfl | exact absurd h (by decide)

theorem from_string_error_iff (s : String) :
    time_unit_from_string s = .error unknown_time_unit ↔ c_content s ∉ abbreviations := by
  rw [time_unit_from_string_eq]
  unfold abbreviations
  split_ifs <;> simp_all

theorem from_string_ok_iff (s : String) (u : time_unit) :
    time_unit_from_string s = .ok u ↔ time_unit_as_string u = c_content s := by
  rw [time_unit_from_string_eq]
  split_ifs <;> cases u <;> simp_all [time_unit_as_string] <;> first
    | done
    | (intro h; simp_all)

/-- C7. `std::less<time_unit>` holds of x and y exactly when x comes strictly
before y in the sequence CYCLE, NSEC, USEC, MSEC, SEC, MIN, HOUR, DAY; it is
irreflexive and transitive, of two different units exactly one is less than the
other, and `precision_class` is injective and strictly increasing along the
sequence. -/
theorem less_is_sequence_order :
    (∀ x y, std.less x y = true ↔ position x < position y) ∧
    (∀ x, std.less x x = false) ∧
    (∀ x y z, std.less x y = true → std.less y z = true → std.less x z = true) ∧
    (∀ x y, x ≠ y →
      (std.less x y = true ∧ std.less y x = false) ∨
      (std.less x y = false ∧ std.less y x = true)) ∧
    Function.Injective std.less.precision_class ∧
    (∀ x y, position x < position y →
      std.less.precision_class x < std.less.precision_class y) := by
  refine ⟨?_, ?_, ?_, ?_, ?_, ?_⟩
  · intro x y; cases x <;> cases y <;> decide
  · intro x; cases x <;> decide
  · intro x y z; cases x <;> cases y <;> cases z <;> decide
  · intro x y; cases x <;> cases y <;> decide
  · intro x y; cases x <;> cases y <;> decide
  · intro x y; cases x <;> cases y <;> decide

/-- C9. For every unit u, `time_unit_from_string(time_unit_as_string(u))`
returns u without throwing; `time_unit_as_string` is injective, and the
abbreviations "c", "ns", "us", "ms", "s", "m", "h", "d" are what it returns on
the eight units, pairwise distinct and none empty. -/
theorem abbreviation_round_trip :
    (∀ u, time_unit_from_string (time_unit_as_string u) = .ok u) ∧
    Function.Injective time_unit_as_string ∧
    unit_sequence.map time_unit_as_string = abbreviations ∧
    abbreviations.Nodup ∧
    (∀ a ∈ abbreviations, a ≠ "") := by
  refine ⟨?_, time_unit_as_string_injective, by decide, by decide, by decide⟩
  intro u
  cases u <;> rfl

/-- C10. For every string s, `time_unit_from_string(s)` throws `std::logic_error`
if and only if the C-string content of s (its characters before the first NUL)
is not one of "c", "ns", "us", "ms", "s", "m", "h", "d"; it returns u if and only
if `time_unit_as_string(u)` is that content, and such a u is unique. The empty
string, "NS", " ns" and "ns " are rejected; "ns" followed by a NUL and further
characters is NSEC. -/
theorem from_string_rejects_exactly_unknown :
    (∀ s, time_unit_from_string s = .error unknown_time_unit ↔
      c_content s ∉ abbreviations) ∧
    (∀ s u, time_unit_from_string s = .ok u ↔ time_unit_as_string u = c_content s) ∧
    (∀ s u v, time_unit_as_string u = c_content s → time_unit_as_string v = c_content s →
      u = v) ∧
    time_unit_from_string "" = .error unknown_time_unit ∧
    time_unit_from_string "NS" = .error unknown_time_unit ∧
    time_unit_from_string " ns" = .error unknown_time_unit ∧
    time_unit_from_string "ns " = .error unknown_time_unit ∧
    time_unit_from_string (String.mk ['n', 's', NUL, 'x']) = .ok time_unit.NSEC := by
  refine ⟨from_string_error_iff, from_string_ok_iff, ?_, rfl, rfl, rfl, rfl, rfl⟩
  intro s u v hu hv
  exact time_unit_as_string_injective (hu.trans hv.symm)

end handystats.chrono

/-! ## Attribute events: properties -/

namespace handystats.events

theorem lookup_filter (p q : Nat) (l : List (Nat × heap_object)) :
    lookup p (l.filter (fun e => e.1 != q)) = if p = q then none else lookup p l := by
  induction l with
  | nil => simp [lookup]
  | cons e rest ih =>
    rw [List.filter_cons]
    by_cases hq : e.1 = q
    · have hb : (e.1 != q) = false := by simp [hq]
      rw [hb]
      simp only [Bool.false_eq_true, if_false]
      rw [ih]
      by_cases hp : p = q
      · simp [hp]
      · have hne : ¬ e.1 = p := fun h => hp (h.symm.trans hq)
        simp [hp, lookup, hne]
    · have hb : (e.1 != q) = true := by simp [hq]
      rw [hb]
      simp only [if_true, lookup]
      rw [ih]
      by_cases hp : p = q
      · have hne : ¬ e.1 = p := fun h => hq (h.trans hp)
        simp [hp, hne]
        intro h
        exact absurd (h.trans hp.symm) hne
      · simp [hp]

theorem find_release (s : store) (p q : Nat) :
    (s.release q).find p = if p = q then none else s.find p := by
  simp [store.release, store.find, lookup_filter]

theorem find_new (s : store) (obj : heap_object) (p : Nat) :
    (s.new obj).1.find p = if p = s.next then some obj else s.find p := by
  simp only [store.new, store.find, lookup]
  by_cases h : s.next = p
  · simp [h]
  · have h2 : ¬ p = s.next := fun h2 => h h2.symm
    simp [h, h2]

theorem find_write (s : store) (q : Nat) (obj : heap_object) (p : Nat) :
    (s.write q obj).find p = if p = q then some obj else s.find p := by
  simp only [store.write, store.find, lookup, lookup_filter]
  by_cases h : q = p
  · simp [h]
  · have h2 : ¬ p = q := fun h2 => h h2.symm
    simp [h, h2]

/-- Below the allocator's `next` there is nothing to find at or above it. -/
theorem lookup_eq_none_of_lt (l : List (Nat × heap_object)) (n p : Nat)
    (h : ∀ e ∈ l, e.1 < n) (hp : n ≤ p) : lookup p l = none := by
  induction l with
  | nil => rfl
  | cons e rest ih =>
    have he : e.1 < n := h e (by simp)
    have hne : ¬ e.1 = p := by omega
    simp only [lookup, hne, if_false]
    exact ih (fun x hx => h x (by simp [hx]))

theorem filter_eq_self_of_lt (l : List (Nat × heap_object)) (n p : Nat)
    (h : ∀ e ∈ l, e.1 < n) (hp : n ≤ p) : l.filter (fun e => e.1 != p) = l := by
  apply List.filter_eq_self.mpr
  intro e he
  have hlt : e.1 < n := h e he
  have hne : ¬ e.1 = p := by omega
  simp [hne]

theorem find_eq_none_of_wf (s : store) (hwf : s.wf) (p : Nat) (hp : s.next ≤ p) :
    s.find p = none :=
  lookup_eq_none_of_lt s.live s.next p hwf.1 hp

theorem lt_next_of_find (s : store) (hwf : s.wf) (p : Nat) (hp : s.find p ≠ none) :
    p < s.next := by
  by_contra h
  exact hp (find_eq_none_of_wf s hwf p (by omega))

/-- The invariant holds of the empty memory. -/
theorem wf_empty (k : Nat) : ({ live := [], next := 0, released := [], internal_errors := k } :
    store).wf := by
  constructor <;> intro x hx <;> simp at hx

/-- The invariant is kept by `new`. -/
theorem wf_new (s : store) (obj : heap_object) (hwf : s.wf) : (s.new obj).1.wf := by
  constructor
  · intro e he
    show e.1 < s.next + 1
    simp only [store.new, List.mem_cons] at he
    rcases he with h | h
    · subst h; simp
    · have := hwf.1 e h; omega
  · intro a ha
    show a < s.next + 1
    have := hwf.2 a ha
    omega

/-- The invariant is kept by `release` of a live object. -/
theorem wf_release (s : store) (p : Nat) (hwf : s.wf) (hp : s.find p ≠ none) :
    (s.release p).wf := by
  have hlt := lt_next_of_find s hwf p hp
  constructor
  · intro e he
    simp only [store.release, List.mem_filter] at he
    exact hwf.1 e he.1
  · intro a ha
    simp only [store.release, List.mem_append, List.mem_singleton] at ha
    rcases ha with h | h
    · exact hwf.2 a h
    · subst h; exact hlt

/-- The invariant is kept by `write` to a live object. -/
theorem wf_write (s : store) (p : Nat) (obj : heap_object) (hwf : s.wf)
    (hp : s.find p ≠ none) : (s.write p obj).wf := by
  have hlt := lt_next_of_find s hwf p hp
  constructor
  · intro e he
    simp only [store.write, List.mem_cons, List.mem_filter] at he
    rcases he with h | h
    · subst h; exact hlt
    · exact hwf.1 e h.1
  · intro a ha
    exact hwf.2 a ha

namespace Attribute

theorem create_set_event_live (s : store) (n : String) (v : handystats.Attribute.value_type)
    (t : chrono.time_point) :
    (create_set_event s n v t).1.live =
      (s.next, heap_object.message
          { destination_name := n
            destination_type := event_destination_type.ATTRIBUTE
            timestamp := t
            event_type := event_type.SET
            event_data := s.next + 1 }) ::
        (s.next + 1, heap_object.value v) :: s.live.filter (fun e => e.1 != s.next) := by
  have h : (s.next + 1 != s.next) = true := by simp
  simp [create_set_event, store.new, store.write, List.filter, h]

theorem create_set_event_wf (s : store) (n : String) (v : handystats.Attribute.value_type)
    (t : chrono.time_point) (hwf : s.wf) : (create_set_event s n v t).1.wf := by
  constructor
  · intro e he
    rw [create_set_event_live, filter_eq_self_of_lt s.live s.next s.next hwf.1 (Nat.le_refl _)] at he
    show e.1 < s.next + 2
    simp only [List.mem_cons] at he
    rcases he with h | h | h
    · subst h; simp
    · subst h; simp
    · have := hwf.1 e h; omega
  · intro a ha
    show a < s.next + 2
    have := hwf.2 a ha
    omega

theorem create_set_event_snd (s : store) (n : String) (v : handystats.Attribute.value_type)
    (t : chrono.time_point) : (create_set_event s n v t).2 = s.next := rfl

theorem create_set_event_find (s : store) (n : String) (v : handystats.Attribute.value_type)
    (t : chrono.time_point) (p : Nat) :
    (create_set_event s n v t).1.find p =
      if p = s.next then
        some (heap_object.message
          { destination_name := n
            destination_type := event_destination_type.ATTRIBUTE
            timestamp := t
            event_type := event_type.SET
            event_data := s.next + 1 })
      else if p = s.next + 1 then some (heap_object.value v)
      else s.find p := by
  simp only [create_set_event]
  rw [find_write, find_new, find_new]
  simp only [store.new]
  by_cases h : p = s.next
  · simp [h]
  · simp [h]

theorem create_set_event_message_at (s : store) (n : String)
    (v : handystats.Attribute.value_type) (t : chrono.time_point) :
    (create_set_event s n v t).1.message_at s.next =
      some { destination_name := n
             destination_type := event_destination_type.ATTRIBUTE
             timestamp := t
             event_type := event_type.SET
             event_data := s.next + 1 } := by
  simp [store.message_at, create_set_event_find]

theorem create_set_event_value_at (s : store) (n : String)
    (v : handystats.Attribute.value_type) (t : chrono.time_point) :
    (create_set_event s n v t).1.value_at (s.next + 1) = some v := by
  simp [store.value_at, create_set_event_find]

theorem create_set_event_next (s : store) (n : String) (v : handystats.Attribute.value_type)
    (t : chrono.time_point) : (create_set_event s n v t).1.next = s.next + 2 := rfl

theorem create_set_event_released (s : store) (n : String)
    (v : handystats.Attribute.value_type) (t : chrono.time_point) :
    (create_set_event s n v t).1.released = s.released := rfl

theorem delete_event_created (s : store) (n : String) (v : handystats.Attribute.value_type)
    (t : chrono.time_point) :
    delete_event (create_set_event s n v t).1 s.next =
      some (((create_set_event s n v t).1.release (s.next + 1)).release s.next) := by
  have hm := create_set_event_message_at s n v t
  have hv := create_set_event_value_at s n v t
  have hm2 : ((create_set_event s n v t).1.release (s.next + 1)).message_at s.next =
      (create_set_event s n v t).1.message_at s.next := by
    simp [store.message_at, find_release]
  simp [delete_event, delete_set_event, hm, hv, hm2]

/-- C1. For every memory and attribute, every pair of values a and b and every
pair of timestamps ta and tb: applying `process_event` to the message
`create_set_event("v", a, ta)` and then to `create_set_event("v", b, tb)` leaves
the attribute's value equal to b, and applying them in the other order leaves
it equal to a. The timestamps are arbitrary, so only the order decides. -/
theorem set_last_write_wins (s : store) (attr : handystats.Attribute)
    (a b : handystats.Attribute.value_type) (ta tb : chrono.time_point) :
    ∃ ma mb,
      (create_set_event (create_set_event s "v" a ta).1 "v" b tb).1.message_at
        (create_set_event s "v" a ta).2 = some ma ∧
      (create_set_event (create_set_event s "v" a ta).1 "v" b tb).1.message_at
        (create_set_event (create_set_event s "v" a ta).1 "v" b tb).2 = some mb ∧
      ma.timestamp = ta ∧ mb.timestamp = tb ∧
      (∃ s1 attr1 s2 attr2,
        process_event (create_set_event (create_set_event s "v" a ta).1 "v" b tb).1 attr ma =
          some (s1, attr1) ∧
        process_event s1 attr1 mb = some (s2, attr2) ∧ attr2.value = b) ∧
      (∃ s1 attr1 s2 attr2,
        process_event (create_set_event (create_set_event s "v" a ta).1 "v" b tb).1 attr mb =
          some (s1, attr1) ∧
        process_event s1 attr1 ma = some (s2, attr2) ∧ attr2.value = a) := by
  have hma : (create_set_event (create_set_event s "v" a ta).1 "v" b tb).1.message_at
      (create_set_event s "v" a ta).2 = (create_set_event s "v" a ta).1.message_at s.next := by
    simp only [store.message_at, create_set_event_snd]
    rw [create_set_event_find (create_set_event s "v" a ta).1]
    have h1 : ¬ s.next = s.next + 2 := by omega
    have h2 : ¬ s.next = s.next + 2 + 1 := by omega
    simp [create_set_event_next, h1, h2]
  have hva : (create_set_event (create_set_event s "v" a ta).1 "v" b tb).1.value_at
      (s.next + 1) = some a := by
    simp only [store.value_at]
    rw [create_set_event_find (create_set_event s "v" a ta).1]
    simp [create_set_event_next, create_set_event_find]
  have hvb : (create_set_event (create_set_event s "v" a ta).1 "v" b tb).1.value_at
      (s.next + 2 + 1) = some b := by
    have h := create_set_event_value_at (create_set_event s "v" a ta).1 "v" b tb
    rw [create_set_event_next] at h
    exact h
  have hmb := create_set_event_message_at (create_set_event s "v" a ta).1 "v" b tb
  rw [create_set_event_next] at hmb
  refine ⟨
    { destination_name := "v"
      destination_type := event_destination_type.ATTRIBUTE
      timestamp := ta
      event_type := event_type.SET
      event_data := s.next + 1 },
    { destination_name := "v"
      destination_type := event_destination_type.ATTRIBUTE
      timestamp := tb
      event_type := event_type.SET
      event_data := s.next + 2 + 1 }, ?_, ?_, rfl, rfl, ?_, ?_⟩
  · rw [hma]; exact create_set_event_message_at s "v" a ta
  · rw [create_set_event_snd, create_set_event_next]; exact hmb
  · refine ⟨(create_set_event (create_set_event s "v" a ta).1 "v" b tb).1, attr.set a,
      (create_set_event (create_set_event s "v" a ta).1 "v" b tb).1, (attr.set a).set b, ?_, ?_, rfl⟩
    · simp only [process_event, process_set_event, hva]; rfl
    · simp only [process_event, process_set_event, hvb]; rfl
  · refine ⟨(create_set_event (create_set_event s "v" a ta).1 "v" b tb).1, attr.set b,
      (create_set_event (create_set_event s "v" a ta).1 "v" b tb).1, (attr.set b).set a, ?_, ?_, rfl⟩
    · simp only [process_event, process_set_event, hvb]; rfl
    · simp only [process_event, process_set_event, hva]; rfl

/-- C2. For every name n, value v and timestamp t, on a memory that satisfies
the allocator's invariant, the pointer `create_set_event` returns refers to a
message whose destination_name is n, whose destination_type is ATTRIBUTE, whose
event_type is SET, whose timestamp is t, and whose event_data refers to a
payload object that holds v and is a copy: the payload and the message are two
different new allocations, at addresses where nothing was live before; every
other address holds what it held, nothing is released, and the invariant is
kept. -/
theorem create_set_event_fields (s : store) (n : String)
    (v : handystats.Attribute.value_type) (t : chrono.time_point) (hwf : s.wf) :
    ∃ m, (create_set_event s n v t).1.message_at (create_set_event s n v t).2 = some m ∧
      m.destination_name = n ∧
      m.destination_type = event_destination_type.ATTRIBUTE ∧
      m.event_type = event_type.SET ∧
      m.timestamp = t ∧
      (create_set_event s n v t).1.value_at m.event_data = some v ∧
      m.event_data ≠ (create_set_event s n v t).2 ∧
      s.find m.event_data = none ∧
      s.find (create_set_event s n v t).2 = none ∧
      (∀ q, q ≠ m.event_data → q ≠ (create_set_event s n v t).2 →
        (create_set_event s n v t).1.find q = s.find q) ∧
      (create_set_event s n v t).1.released = s.released ∧
      (create_set_event s n v t).1.wf := by
  refine ⟨_, create_set_event_message_at s n v t, rfl, rfl, rfl, rfl,
    create_set_event_value_at s n v t, by simp [create_set_event_snd],
    find_eq_none_of_wf s hwf _ (Nat.le_succ _), find_eq_none_of_wf s hwf _ (Nat.le_refl _),
    ?_, rfl, create_set_event_wf s n v t hwf⟩
  intro q h1 h2
  rw [create_set_event_snd] at h2
  simp only [] at h1
  simp [create_set_event_find, h1, h2]

/-- C2 at `sample_store`, which satisfies the invariant: the message goes to
address 4 and the copy of the value to address 5. -/
theorem create_set_event_fields_witness :
    sample_store.wf ∧
    ∃ m, sample_created.1.message_at sample_created.2 = some m ∧
      m.destination_name = "v" ∧
      m.destination_type = event_destination_type.ATTRIBUTE ∧
      m.event_type = event_type.SET ∧
      m.timestamp = sample_late ∧
      sample_created.1.value_at m.event_data = some (handystats.Attribute.value_type.string "a") ∧
      m.event_data ≠ sample_created.2 ∧
      sample_store.find m.event_data = none ∧
      sample_store.find sample_created.2 = none ∧
      (∀ q, q ≠ m.event_data → q ≠ sample_created.2 →
        sample_created.1.find q = sample_store.find q) ∧
      sample_created.1.released = sample_store.released ∧
      sample_created.1.wf :=
  ⟨by decide,
    create_set_event_fields sample_store "v" (handystats.Attribute.value_type.string "a")
      sample_late (by decide)⟩

/-- C3, as stated, fails. `sample_set_message` is a SET message stamped 200 ns;
after `process_event` the attribute does not record 200 ns. The same message
stamped 100 ns leads to the very same attribute, so no timestamp read from the
attribute can be that of the message in both cases. -/
theorem set_timestamp_not_recorded :
    sample_set_message.event_type = event_type.SET ∧
    ∃ r, process_event sample_store sample_attr sample_set_message = some r ∧
      r.2.m_timestamp ≠ sample_set_message.timestamp ∧
      process_event sample_store sample_attr
        { sample_set_message with timestamp := sample_early } = some r :=
  ⟨rfl, (sample_store, sample_attr.set (handystats.Attribute.value_type.string "a")),
    rfl, by decide, rfl⟩

/-- C3, amended. After `process_event` applies a SET message whose payload is v,
the attribute's value is v; the message's timestamp is not handed to the
attribute, and the resulting attribute is the same whatever that timestamp is. -/
theorem set_stores_payload_whatever_timestamp (s : store) (attr : handystats.Attribute)
    (m : event_message) (v : handystats.Attribute.value_type)
    (hset : m.event_type = event_type.SET) (hv : s.value_at m.event_data = some v) :
    ∃ attr1, process_event s attr m = some (s, attr1) ∧ attr1.value = v ∧
      ∀ t, process_event s attr { m with timestamp := t } = some (s, attr1) := by
  refine ⟨attr.set v, ?_, rfl, ?_⟩
  · simp only [process_event, hset, process_set_event, hv]; rfl
  · intro t
    simp only [process_event, hset, process_set_event, hv]; rfl

/-- The amended C3 at `sample_set_message`, whose payload is "a". -/
theorem set_stores_payload_whatever_timestamp_witness :
    ∃ attr1, process_event sample_store sample_attr sample_set_message =
        some (sample_store, attr1) ∧
      attr1.value = handystats.Attribute.value_type.string "a" ∧
      ∀ t, process_event sample_store sample_attr { sample_set_message with timestamp := t } =
        some (sample_store, attr1) :=
  set_stores_payload_whatever_timestamp sample_store sample_attr sample_set_message
    (handystats.Attribute.value_type.string "a") rfl rfl

/-- C4. For every memory, every attribute and every message whose event_type is
not SET, `process_event` returns normally and leaves the attribute, and the
memory, exactly as they were. -/
theorem process_event_unrecognized_is_noop (s : store) (attr : handystats.Attribute)
    (m : event_message) (h : m.event_type ≠ event_type.SET) :
    process_event s attr m = some (s, attr) := by
  unfold process_event
  cases hm : m.event_type with
  | SET => exact absurd hm h
  | other code => rfl

/-- C4 at `sample_other_message`, whose event type is `other 7`. -/
theorem process_event_unrecognized_is_noop_witness :
    process_event sample_store sample_attr sample_other_message =
      some (sample_store, sample_attr) :=
  process_event_unrecognized_is_noop sample_store sample_attr sample_other_message
    (by decide)

/-- C5, as stated, fails. The message at address 2 of `sample_store` has an event
type other than SET, and `delete_event` on it returns normally, with the memory
as it was: the message and its payload are still there. -/
theorem delete_event_unrecognized_returns :
    ∃ m, sample_store.message_at 2 = some m ∧ m.event_type ≠ event_type.SET ∧
      delete_event sample_store 2 = some sample_store ∧
      sample_store.find 2 ≠ none ∧ sample_store.find m.event_data ≠ none :=
  ⟨sample_other_message, rfl, by decide, rfl, by decide, by decide⟩

/-- C5, amended. For every message whose event_type is not SET, `delete_event`
signals no error: it returns normally and releases nothing, neither the
message nor its payload. -/
theorem delete_event_unrecognized_releases_nothing (s : store) (p : Nat) (m : event_message)
    (hm : s.message_at p = some m) (h : m.event_type ≠ event_type.SET) :
    delete_event s p = some s := by
  simp only [delete_event, hm, Option.bind_eq_bind, Option.some_bind]
  cases ht : m.event_type with
  | SET => exact absurd ht h
  | other code => rfl

/-- The amended C5 at the message of type `other 7` at address 2. -/
theorem delete_event_unrecognized_releases_nothing_witness :
    delete_event sample_store 2 = some sample_store :=
  delete_event_unrecognized_releases_nothing sample_store 2 sample_other_message rfl
    (by decide)

/-- C6, as stated, fails. `sample_other_message` has an event type other than
SET; `process_event` on it returns with the error counter still 0, not 1. -/
theorem unrecognized_event_not_counted :
    sample_other_message.event_type ≠ event_type.SET ∧
    ∃ r, process_event sample_store sample_attr sample_other_message = some r ∧
      r.1.internal_errors = 0 ∧
      r.1.internal_errors ≠ sample_store.internal_errors + 1 :=
  ⟨by decide, (sample_store, sample_attr), rfl, rfl, by decide⟩

/-- C6, amended. A protocol error at process time is not counted: for every
message whose event_type is not recognized for ATTRIBUTE, `process_event`
returns and leaves the internal error counter as it was; the event is dropped
silently. -/
theorem unrecognized_event_leaves_counter (s : store) (attr : handystats.Attribute)
    (m : event_message) (h : m.event_type ≠ event_type.SET) :
    ∃ r, process_event s attr m = some r ∧ r.1.internal_errors = s.internal_errors := by
  refine ⟨(s, attr), ?_, rfl⟩
  unfold process_event
  cases hm : m.event_type with
  | SET => exact absurd hm h
  | other code => rfl

/-- The amended C6 at `sample_other_message`. -/
theorem unrecognized_event_leaves_counter_witness :
    ∃ r, process_event sample_store sample_attr sample_other_message = some r ∧
      r.1.internal_errors = sample_store.internal_errors :=
  unrecognized_event_leaves_counter sample_store sample_attr sample_other_message
    (by decide)

/-- C8. For every memory that satisfies the allocator's invariant and every
name, value and timestamp, with p the pointer `create_set_event` returns and m
the message it refers to: the message and its payload are the two allocations
of that call, at two different addresses where nothing was live and which were
never released before. `process_event` on m returns the memory as it was, so
it releases neither. `delete_event` on p then returns, and the release log has
gained exactly the payload's address followed by the message's address, so
that each of the two occurs in the log exactly once; the live objects are
again exactly those from before the creation, so both objects are gone and
nothing else is released. -/
theorem created_event_released_exactly_once (s : store) (n : String)
    (v : handystats.Attribute.value_type) (t : chrono.time_point)
    (attr : handystats.Attribute) (hwf : s.wf) :
    ∃ m s2,
      (create_set_event s n v t).1.message_at (create_set_event s n v t).2 = some m ∧
      (create_set_event s n v t).1.value_at m.event_data = some v ∧
      m.event_data ≠ (create_set_event s n v t).2 ∧
      s.find m.event_data = none ∧
      s.find (create_set_event s n v t).2 = none ∧
      m.event_data ∉ s.released ∧
      (create_set_event s n v t).2 ∉ s.released ∧
      (∀ q, q ≠ m.event_data → q ≠ (create_set_event s n v t).2 →
        (create_set_event s n v t).1.find q = s.find q) ∧
      (create_set_event s n v t).1.released = s.released ∧
      process_event (create_set_event s n v t).1 attr m =
        some ((create_set_event s n v t).1, attr.set v) ∧
      delete_event (create_set_event s n v t).1 (create_set_event s n v t).2 = some s2 ∧
      s2.released = s.released ++ [m.event_data, (create_set_event s n v t).2] ∧
      s2.released.count m.event_data = 1 ∧
      s2.released.count (create_set_event s n v t).2 = 1 ∧
      s2.live = s.live ∧
      s2.find m.event_data = none ∧
      s2.find (create_set_event s n v t).2 = none ∧
      (∀ q, s2.find q = s.find q) ∧
      s2.wf := by
  have hpd : s.next + 1 ∉ s.released := fun h => by have := hwf.2 _ h; omega
  have hp : s.next ∉ s.released := fun h => by have := hwf.2 _ h; omega
  have hrel : (((create_set_event s n v t).1.release (s.next + 1)).release s.next).released =
      s.released ++ [s.next + 1, s.next] := by
    simp [store.release, create_set_event_released]
  have hlive : (((create_set_event s n v t).1.release (s.next + 1)).release s.next).live =
      s.live := by
    have h1 : (s.next + 1 != s.next) = true := by simp
    have h2 : (s.next != s.next + 1) = true := by simp
    simp only [store.release, create_set_event_live, List.filter, h1, h2, bne_self_eq_false,
      filter_eq_self_of_lt s.live s.next s.next hwf.1 (Nat.le_refl _),
      filter_eq_self_of_lt s.live s.next (s.next + 1) hwf.1 (Nat.le_succ _)]
  have hfind : ∀ q, (((create_set_event s n v t).1.release (s.next + 1)).release s.next).find q =
      s.find q := by
    intro q
    simp only [store.find, hlive]
  refine ⟨_, _, create_set_event_message_at s n v t, create_set_event_value_at s n v t,
    by simp [create_set_event_snd],
    find_eq_none_of_wf s hwf _ (Nat.le_succ _), find_eq_none_of_wf s hwf _ (Nat.le_refl _),
    hpd, hp, ?_, rfl, ?_, delete_event_created s n v t, hrel, ?_, ?_, hlive, ?_, ?_, hfind, ?_⟩
  · intro q h1 h2
    rw [create_set_event_snd] at h2
    simp only [] at h1
    simp [create_set_event_find, h1, h2]
  · simp only [process_event, process_set_event, create_set_event_value_at]; rfl
  · rw [hrel]
    simp [List.count_append, List.count_eq_zero_of_not_mem hpd, List.count_cons]
  · rw [hrel, create_set_event_snd]
    simp [List.count_append, List.count_eq_zero_of_not_mem hp, List.count_cons]
  · rw [hfind]; exact find_eq_none_of_wf s hwf _ (Nat.le_succ _)
  · rw [hfind]; exact find_eq_none_of_wf s hwf _ (Nat.le_refl _)
  · constructor
    · intro e he
      rw [hlive] at he
      show e.1 < s.next + 2
      have := hwf.1 e he
      omega
    · intro a ha
      rw [hrel] at ha
      show a < s.next + 2
      simp only [List.mem_append, List.mem_cons, List.mem_singleton, List.not_mem_nil,
        or_false] at ha
      rcases ha with h | h | h
      · have := hwf.2 a h; omega
      · omega
      · omega

/-- C8 at `sample_store`, which satisfies the invariant: the message goes to
address 4, its payload to address 5, and the log ends up as 5 followed by 4. -/
theorem created_event_released_exactly_once_witness :
    sample_store.wf ∧
    ∃ m s2,
      sample_created.1.message_at sample_created.2 = some m ∧
      sample_created.1.value_at m.event_data = some (handystats.Attribute.value_type.string "a") ∧
      m.event_data ≠ sample_created.2 ∧
      sample_store.find m.event_data = none ∧
      sample_store.find sample_created.2 = none ∧
      m.event_data ∉ sample_store.released ∧
      sample_created.2 ∉ sample_store.released ∧
      (∀ q, q ≠ m.event_data → q ≠ sample_created.2 →
        sample_created.1.find q = sample_store.find q) ∧
      sample_created.1.released = sample_store.released ∧
      process_event sample_created.1 sample_attr m =
        some (sample_created.1, sample_attr.set (handystats.Attribute.value_type.string "a")) ∧
      delete_event sample_created.1 sample_created.2 = some s2 ∧
      s2.released = sample_store.released ++ [m.event_data, sample_created.2] ∧
      s2.released.count m.event_data = 1 ∧
      s2.released.count sample_created.2 = 1 ∧
      s2.live = sample_store.live ∧
      s2.find m.event_data = none ∧
      s2.find sample_created.2 = none ∧
      (∀ q, s2.find q = sample_store.find q) ∧
      s2.wf :=
  ⟨by decide,
    created_event_released_exactly_once sample_store "v"
      (handystats.Attribute.value_type.string "a") sample_late sample_attr (by decide)⟩

end Attribute
end handystats.events
